import Mathlib

/-!
# Verification of the global-waterlevel-forecast core pipeline

Shallow embedding of the repository's data model and operations:
the flood-warning classifier, ensemble exceedance statistics, the
partitioned series store (schema in the SQL DDL), quantile-mapping bias
correction, and the frontend utilities `getDateRangeGeoglows` and
`filterByDayWaterLevel` from `frontend/src/app/modules/utils.ts`.

The repository ships the SQL schema, the Angular frontend and a README;
the Python/SQL task pipeline (store operations, bias correction,
classification) is declared by the schema and the spec but its code is
not in the visible sources, so those operations are modelled from the
spec, as marked on each definition.
-/

/-! ## Warning levels and the flood warning classifier -/

/-- Categorical flood warning level. The frontend encodes no-warning as the
string "R0" and the return periods as "R2" … "R100"
(`app.component` flood layer conditions). -/
inductive WarningLevel where
  | r0 | r2 | r5 | r10 | r25 | r50 | r100
  deriving DecidableEq, Repr

/-- Severity index of a warning level: 0 for no-warning up to 6 for R100. -/
def WarningLevel.idx : WarningLevel → Nat
  | .r0 => 0 | .r2 => 1 | .r5 => 2 | .r10 => 3 | .r25 => 4 | .r50 => 5 | .r100 => 6

/-- Per-station return-period thresholds R2 < R5 < R10 < R25 < R50 < R100. -/
structure RPThresholds where
  r2 : ℚ
  r5 : ℚ
  r10 : ℚ
  r25 : ℚ
  r50 : ℚ
  r100 : ℚ
  deriving DecidableEq, Repr

/-- Strictly increasing return-period thresholds, as required by §4.4. -/
def RPThresholds.StrictIncr (t : RPThresholds) : Prop :=
  t.r2 < t.r5 ∧ t.r5 < t.r10 ∧ t.r10 < t.r25 ∧ t.r25 < t.r50 ∧ t.r50 < t.r100

/-- Threshold value attached to a (positive) warning level; `none` for r0. -/
def RPThresholds.thrOf (t : RPThresholds) : WarningLevel → Option ℚ
  | .r0 => none
  | .r2 => some t.r2
  | .r5 => some t.r5
  | .r10 => some t.r10
  | .r25 => some t.r25
  | .r50 => some t.r50
  | .r100 => some t.r100

/-- Modelled from the spec (§4.3 Ensemble Aggregator; the aggregation code of
the `tasks` component is not in the visible sources): exceedance probability
of threshold `t` is the fraction of the ensemble members whose value is ≥ t. -/
def exceedProb (members : List ℚ) (t : ℚ) : ℚ :=
  (members.countP (fun v => t ≤ v) : ℚ) / (members.length : ℚ)

/-- Whether the exceedance probability of threshold `t` meets the fixed
confidence cutoff `c` (e.g. `c = 1/2` for "≥ 50% of members exceed"). -/
def meetsCutoff (members : List ℚ) (c t : ℚ) : Bool :=
  decide (c ≤ exceedProb members t)

/-- Modelled from the spec (§4.4 Flood Warning Classifier; the classification
code of the `tasks` component is not in the visible sources): the assigned
warning level is the highest `R_k` whose exceedance probability meets the
confidence cutoff, and no-warning when none does. -/
def classifyWarning (members : List ℚ) (thr : RPThresholds) (c : ℚ) : WarningLevel :=
  if meetsCutoff members c thr.r100 then .r100
  else if meetsCutoff members c thr.r50 then .r50
  else if meetsCutoff members c thr.r25 then .r25
  else if meetsCutoff members c thr.r10 then .r10
  else if meetsCutoff members c thr.r5 then .r5
  else if meetsCutoff members c thr.r2 then .r2
  else .r0

/-- `w` is a positive level whose threshold meets the cutoff. -/
def MeetsLevel (members : List ℚ) (thr : RPThresholds) (c : ℚ) (w : WarningLevel) : Prop :=
  ∃ t, thr.thrOf w = some t ∧ c ≤ exceedProb members t

/-- `w` is the highest level meeting the cutoff (or r0 when none does). -/
def IsHighestMeeting (members : List ℚ) (thr : RPThresholds) (c : ℚ)
    (w : WarningLevel) : Prop :=
  (MeetsLevel members thr c w ∨ w = .r0) ∧
    ∀ w', w.idx < w'.idx → ¬ MeetsLevel members thr c w'

/-! ### The worked scenario from §8: 52 members, 30 exceed R25, 5 exceed R50 -/

/-- 52-member ensemble: 22 members at 1, 25 at 30 and 5 at 60, so that 30
members exceed R25 = 25 but only 5 exceed R50 = 50. -/
def scenarioMembers : List ℚ :=
  List.replicate 22 1 ++ List.replicate 25 30 ++ List.replicate 5 60

/-- Strictly increasing thresholds R2 = 2 … R100 = 100. -/
def scenarioThr : RPThresholds := ⟨2, 5, 10, 25, 50, 100⟩

lemma scenarioThr_strictIncr : scenarioThr.StrictIncr := by
  refine ⟨?_, ?_, ?_, ?_, ?_⟩ <;> norm_num [scenarioThr]

lemma scenario_classify :
    classifyWarning scenarioMembers scenarioThr (1/2) = .r25 := by
  rw [classifyWarning]
  norm_num [meetsCutoff, exceedProb, scenarioThr,
    show scenarioMembers.countP (fun v => (100:ℚ) ≤ v) = 0 from by decide,
    show scenarioMembers.countP (fun v => (50:ℚ) ≤ v) = 5 from by decide,
    show scenarioMembers.countP (fun v => (25:ℚ) ≤ v) = 30 from by decide,
    show scenarioMembers.length = 52 from by decide]

/-- C1: for strictly increasing thresholds, the classifier assigns the highest
threshold level whose exceedance probability meets the confidence cutoff, and
no-warning when no threshold meets it. -/
theorem classifyWarning_assigns_highest (members : List ℚ) (thr : RPThresholds)
    (c : ℚ) (hinc : thr.StrictIncr) :
    IsHighestMeeting members thr c (classifyWarning members thr c) := by
  have hmk : ∀ t, meetsCutoff members c t = true ↔ c ≤ exceedProb members t := by
    intro t; simp [meetsCutoff]
  have hnot : ∀ w t, thr.thrOf w = some t → meetsCutoff members c t = false →
      ¬ MeetsLevel members thr c w := by
    rintro w t hwt hf ⟨t', ht', hle⟩
    rw [hwt] at ht'
    injection ht' with h
    subst h
    have hc := (hmk t).2 hle
    rw [hf] at hc
    exact Bool.false_ne_true hc
  unfold classifyWarning
  by_cases h100 : meetsCutoff members c thr.r100 = true
  · rw [if_pos h100]
    refine ⟨Or.inl ⟨thr.r100, rfl, (hmk _).1 h100⟩, ?_⟩
    intro w' hw'
    cases w' <;> simp [WarningLevel.idx] at hw'
  · rw [if_neg h100]
    rw [Bool.not_eq_true] at h100
    by_cases h50 : meetsCutoff members c thr.r50 = true
    · rw [if_pos h50]
      refine ⟨Or.inl ⟨thr.r50, rfl, (hmk _).1 h50⟩, ?_⟩
      intro w' hw'
      cases w' <;> simp [WarningLevel.idx] at hw'
      exact hnot _ thr.r100 rfl h100
    · rw [if_neg h50]
      rw [Bool.not_eq_true] at h50
      by_cases h25 : meetsCutoff members c thr.r25 = true
      · rw [if_pos h25]
        refine ⟨Or.inl ⟨thr.r25, rfl, (hmk _).1 h25⟩, ?_⟩
        intro w' hw'
        cases w' <;> simp [WarningLevel.idx] at hw'
        · exact hnot _ thr.r50 rfl h50
        · exact hnot _ thr.r100 rfl h100
      · rw [if_neg h25]
        rw [Bool.not_eq_true] at h25
        by_cases h10 : meetsCutoff members c thr.r10 = true
        · rw [if_pos h10]
          refine ⟨Or.inl ⟨thr.r10, rfl, (hmk _).1 h10⟩, ?_⟩
          intro w' hw'
          cases w' <;> simp [WarningLevel.idx] at hw'
          · exact hnot _ thr.r25 rfl h25
          · exact hnot _ thr.r50 rfl h50
          · exact hnot _ thr.r100 rfl h100
        · rw [if_neg h10]
          rw [Bool.not_eq_true] at h10
          by_cases h5 : meetsCutoff members c thr.r5 = true
          · rw [if_pos h5]
            refine ⟨Or.inl ⟨thr.r5, rfl, (hmk _).1 h5⟩, ?_⟩
            intro w' hw'
            cases w' <;> simp [WarningLevel.idx] at hw'
            · exact hnot _ thr.r10 rfl h10
            · exact hnot _ thr.r25 rfl h25
            · exact hnot _ thr.r50 rfl h50
            · exact hnot _ thr.r100 rfl h100
          · rw [if_neg h5]
            rw [Bool.not_eq_true] at h5
            by_cases h2 : meetsCutoff members c thr.r2 = true
            · rw [if_pos h2]
              refine ⟨Or.inl ⟨thr.r2, rfl, (hmk _).1 h2⟩, ?_⟩
              intro w' hw'
              cases w' <;> simp [WarningLevel.idx] at hw'
              · exact hnot _ thr.r5 rfl h5
              · exact hnot _ thr.r10 rfl h10
              · exact hnot _ thr.r25 rfl h25
              · exact hnot _ thr.r50 rfl h50
              · exact hnot _ thr.r100 rfl h100
            · rw [if_neg h2]
              rw [Bool.not_eq_true] at h2
              refine ⟨Or.inr rfl, ?_⟩
              intro w' hw'
              cases w' <;> simp [WarningLevel.idx] at hw'
              · exact hnot _ thr.r2 rfl h2
              · exact hnot _ thr.r5 rfl h5
              · exact hnot _ thr.r10 rfl h10
              · exact hnot _ thr.r25 rfl h25
              · exact hnot _ thr.r50 rfl h50
              · exact hnot _ thr.r100 rfl h100

/-- C1 witness: in the §8 scenario (30 of 52 members exceed R25, 5 exceed R50,
cutoff 50%) the assigned warning — R25 — is the highest level meeting the
cutoff. -/
theorem classifyWarning_assigns_highest_witness :
    IsHighestMeeting scenarioMembers scenarioThr (1/2) WarningLevel.r25 :=
  scenario_classify ▸
    classifyWarning_assigns_highest scenarioMembers scenarioThr (1/2)
      scenarioThr_strictIncr

/-- C4: for a fixed member set, exceedance probability is monotonic
non-increasing in the threshold. -/
theorem exceedProb_antitone (members : List ℚ) (t t' : ℚ) (h : t ≤ t') :
    exceedProb members t' ≤ exceedProb members t := by
  unfold exceedProb
  have hc : members.countP (fun v => decide (t' ≤ v)) ≤
      members.countP (fun v => decide (t ≤ v)) := by
    apply List.countP_mono_left
    intro v _ hpv
    simp only [decide_eq_true_eq] at hpv ⊢
    exact le_trans h hpv
  rcases Nat.eq_zero_or_pos members.length with h0 | hpos
  · simp [h0]
  · have hlen : (0:ℚ) < (members.length : ℚ) := by exact_mod_cast hpos
    rw [div_le_div_iff_of_pos_right hlen]
    exact_mod_cast hc

/-- C4 witness: the §8 scenario member set has
p(R2) ≥ p(R5) ≥ p(R10) ≥ p(R25) ≥ p(R50) ≥ p(R100) for the strictly
increasing thresholds 2 < 5 < 10 < 25 < 50 < 100. -/
theorem exceedProb_antitone_witness :
    exceedProb scenarioMembers 5 ≤ exceedProb scenarioMembers 2 ∧
    exceedProb scenarioMembers 10 ≤ exceedProb scenarioMembers 5 ∧
    exceedProb scenarioMembers 25 ≤ exceedProb scenarioMembers 10 ∧
    exceedProb scenarioMembers 50 ≤ exceedProb scenarioMembers 25 ∧
    exceedProb scenarioMembers 100 ≤ exceedProb scenarioMembers 50 :=
  ⟨exceedProb_antitone scenarioMembers 2 5 (by norm_num),
   exceedProb_antitone scenarioMembers 5 10 (by norm_num),
   exceedProb_antitone scenarioMembers 10 25 (by norm_num),
   exceedProb_antitone scenarioMembers 25 50 (by norm_num),
   exceedProb_antitone scenarioMembers 50 100 (by norm_num)⟩

/-! ## Warning levels are derived, never authoritative state (C7)

The schema persists a `warning` table (hydroweb, datetime, wd01 … wd15),
one text column per lead day of the 15-day horizon.  Per the spec (§3)
this is only a cache of a derived quantity. -/

/-- Modelled from the spec (§3 WarningLevel, §4.4; the pipeline code of the
`tasks` component is not in the visible sources): the state visible to the
warning derivation — ensemble members per (reach, initialization day, lead
day), per-station thresholds, the station→reach link, and the persisted
`warning`-table rows regarded as a cache keyed by (hydroweb, initialization
day, lead day). -/
structure PipelineState where
  ensembles : Int → Nat → Nat → Option (List ℚ)
  thresholds : String → RPThresholds
  reachOf : String → Int
  warningCache : String → Nat → Nat → Option WarningLevel

/-- Modelled from the spec: derive the warning level for a station,
initialization day and lead day from the ensemble forecast and the station's
return-period thresholds alone. -/
def deriveWarning (s : PipelineState) (hydroweb : String) (initDay leadDay : Nat)
    (c : ℚ) : Option WarningLevel :=
  (s.ensembles (s.reachOf hydroweb) initDay leadDay).map
    (fun m => classifyWarning m (s.thresholds hydroweb) c)

/-- C7: the derived warning level for every station, initialization day and
lead day depends only on the ensemble forecasts, the thresholds and the
station→reach link — two states that agree on those but carry arbitrary,
even conflicting, persisted warning caches derive identical warning levels,
so the persisted copy is recomputable and never authoritative. -/
theorem deriveWarning_cache_independent (s₁ s₂ : PipelineState)
    (hydroweb : String) (initDay leadDay : Nat) (c : ℚ)
    (he : s₁.ensembles = s₂.ensembles) (ht : s₁.thresholds = s₂.thresholds)
    (hr : s₁.reachOf = s₂.reachOf) :
    deriveWarning s₁ hydroweb initDay leadDay c =
      deriveWarning s₂ hydroweb initDay leadDay c := by
  unfold deriveWarning
  rw [he, ht, hr]

/-- C7 witness: two concrete states sharing ensembles, thresholds and links
but with contradictory warning caches (none vs. R100) agree on the derived
warning. -/
theorem deriveWarning_cache_independent_witness :
    deriveWarning
        ⟨fun _ _ _ => some scenarioMembers, fun _ => scenarioThr, fun _ => 9,
          fun _ _ _ => none⟩ "HW-0001" 0 0 (1/2) =
      deriveWarning
        ⟨fun _ _ _ => some scenarioMembers, fun _ => scenarioThr, fun _ => 9,
          fun _ _ _ => some .r100⟩ "HW-0001" 0 0 (1/2) :=
  deriveWarning_cache_independent _ _ "HW-0001" 0 0 (1/2) rfl rfl rfl


/-! ## Partitioned Series Store: query and append contracts (C2, C8) -/

/-- The four time-indexed series kinds of the schema: `waterlevel_data`,
`historical_simulation`, `ensemble_forecast` and `forecast_records`. -/
inductive SeriesKind where
  | waterlevelData | historicalSimulation | ensembleForecast | forecastRecords
  deriving DecidableEq, Repr

/-- Storage failure modes of §4.1 reachable from `query`/`appendRow`. -/
inductive StoreError where
  | notFound | invalidRange
  deriving DecidableEq, Repr

/-- Modelled from the spec (§4.1; the store operations of the `tasks`/backend
components are not in the visible sources, only the schema is): per kind, a
known key maps to its rows (timestamp, value); an unknown key maps to none. -/
structure SeriesStore where
  series : SeriesKind → String → Option (List (Nat × ℚ))

/-- Row ordering by timestamp, ascending. -/
def byTime (a b : Nat × ℚ) : Prop := a.1 ≤ b.1

instance : DecidableRel byTime := fun a b => Nat.decLe a.1 b.1

instance : IsTotal (Nat × ℚ) byTime := ⟨fun a b => Nat.le_total a.1 b.1⟩

instance : IsTrans (Nat × ℚ) byTime := ⟨fun _ _ _ => Nat.le_trans⟩

/-- Modelled from the spec (§4.1): `query(series_kind, key, start, end)`
returns the key's rows within the inclusive window, ordered by timestamp
ascending; it fails with NotFound for an unknown key and with InvalidRange
when start > end. -/
def query (s : SeriesStore) (kind : SeriesKind) (key : String)
    (tStart tEnd : Nat) : Except StoreError (List (Nat × ℚ)) :=
  match s.series kind key with
  | none => .error .notFound
  | some rows =>
      if tEnd < tStart then .error .invalidRange
      else .ok ((rows.filter
          (fun r => decide (tStart ≤ r.1) && decide (r.1 ≤ tEnd))).insertionSort byTime)

/-- The success half of the §4.1 query contract: on a known key the query
succeeds with rows sorted ascending by timestamp, every returned timestamp
inside [tStart, tEnd], and an empty sequence — not a failure — when no stored
row falls in the window. -/
def QueryOkContract (s : SeriesStore) (kind : SeriesKind) (key : String)
    (tStart tEnd : Nat) : Prop :=
  ∀ rows, s.series kind key = some rows →
    ∃ l, query s kind key tStart tEnd = .ok l ∧ List.Sorted byTime l ∧
      (∀ r ∈ l, tStart ≤ r.1 ∧ r.1 ≤ tEnd) ∧
      ((∀ r ∈ rows, r.1 < tStart ∨ tEnd < r.1) → l = [])

/-- C2: for every series kind, key and valid range (start ≤ end), `query`
returns rows sorted ascending with no timestamp outside the inclusive bounds,
fails with NotFound exactly when the key is unknown, and returns an empty
sequence (not a failure) when the key is known but no row is in range. -/
theorem query_contract (s : SeriesStore) (kind : SeriesKind) (key : String)
    (tStart tEnd : Nat) (hr : tStart ≤ tEnd) :
    (s.series kind key = none →
        query s kind key tStart tEnd = .error .notFound) ∧
    QueryOkContract s kind key tStart tEnd := by
  constructor
  · intro hnone
    unfold query
    rw [hnone]
  · intro rows hrows
    unfold query
    rw [hrows]
    dsimp only
    rw [if_neg (by omega : ¬ tEnd < tStart)]
    refine ⟨_, rfl, List.sorted_insertionSort byTime _, ?_, ?_⟩
    · intro r hrmem
      have hm := (List.perm_insertionSort byTime _).mem_iff.1 hrmem
      have hp := List.of_mem_filter hm
      simp only [Bool.and_eq_true, decide_eq_true_eq] at hp
      exact hp
    · intro hout
      have hfil : (rows.filter
          (fun r => decide (tStart ≤ r.1) && decide (r.1 ≤ tEnd))) = [] := by
        rw [List.filter_eq_nil_iff]
        intro r hrr
        rcases hout r hrr with h1 | h1 <;>
          simp only [Bool.and_eq_true, decide_eq_true_eq, not_and] <;> omega
      rw [hfil]
      rfl

/-- A small concrete store: every kind knows the single key HW-0001 with
three out-of-order rows; other keys are unknown. -/
def demoStore : SeriesStore :=
  ⟨fun _ key => if key = "HW-0001" then some [(5, 3), (1, 2), (9, 4)] else none⟩

/-- C2 witness: the query contract instantiated on the concrete `demoStore`
over the valid window [1, 9]. -/
theorem query_contract_witness :
    (demoStore.series .waterlevelData "HW-0001" = none →
        query demoStore .waterlevelData "HW-0001" 1 9 = .error .notFound) ∧
    QueryOkContract demoStore .waterlevelData "HW-0001" 1 9 :=
  query_contract demoStore .waterlevelData "HW-0001" 1 9 (by decide)

/-- Replace the rows stored under one (kind, key). -/
def updateSeries (s : SeriesStore) (kind : SeriesKind) (key : String)
    (rows : List (Nat × ℚ)) : SeriesStore :=
  ⟨fun k2 key2 => if k2 = kind ∧ key2 = key then some rows else s.series k2 key2⟩

/-- Modelled from the spec (§4.1 failure modes and the §8 duplicate-write
scenario; the ingestion code of the `tasks` component is not in the visible
sources): append upserts keyed by (key, timestamp) with last-write-wins on a
conflicting duplicate; the conflict is reported through the returned logging
flag, never as a failure. -/
def appendRow (s : SeriesStore) (kind : SeriesKind) (key : String)
    (t : Nat) (v : ℚ) : Except StoreError (SeriesStore × Bool) :=
  match s.series kind key with
  | none => .error .notFound
  | some rows =>
      let conflict := rows.any (fun r => decide (r.1 = t) && decide (r.2 ≠ v))
      let newRows := rows.filter (fun r => decide (r.1 ≠ t)) ++ [(t, v)]
      .ok (updateSeries s kind key newRows, conflict)

/-- Last-write-wins outcome of appending (t, v) over an existing conflicting
row (t, vOld): the append succeeds, the conflict is logged, querying the
timestamp returns the latest value, and the prior value is not retrievable by
any query. -/
def LastWriteWins (s : SeriesStore) (kind : SeriesKind) (key : String)
    (t : Nat) (v vOld : ℚ) : Prop :=
  ∃ s2 logged, appendRow s kind key t v = .ok (s2, logged) ∧ logged = true ∧
    query s2 kind key t t = .ok [(t, v)] ∧
    ∀ a b l, query s2 kind key a b = .ok l → (t, vOld) ∉ l

/-- C8: appending a row whose (key, timestamp) already exists with a different
value succeeds under last-write-wins: the stored value becomes the latest
write, the prior value is not retrievable, and the conflict is logged rather
than fatal. -/
theorem append_last_write_wins (s : SeriesStore) (kind : SeriesKind)
    (key : String) (rows : List (Nat × ℚ)) (t : Nat) (v vOld : ℚ)
    (hrows : s.series kind key = some rows) (hmem : (t, vOld) ∈ rows)
    (hne : vOld ≠ v) :
    LastWriteWins s kind key t v vOld := by
  have hupd : (updateSeries s kind key
      (rows.filter (fun r => decide (r.1 ≠ t)) ++ [(t, v)])).series kind key =
      some (rows.filter (fun r => decide (r.1 ≠ t)) ++ [(t, v)]) := by
    unfold updateSeries
    simp
  refine ⟨updateSeries s kind key (rows.filter (fun r => decide (r.1 ≠ t)) ++ [(t, v)]),
    rows.any (fun r => decide (r.1 = t) && decide (r.2 ≠ v)), ?_, ?_, ?_, ?_⟩
  · unfold appendRow
    rw [hrows]
  · rw [List.any_eq_true]
    exact ⟨(t, vOld), hmem, by simp [hne]⟩
  · unfold query
    rw [hupd]
    dsimp only
    rw [if_neg (by omega : ¬ t < t)]
    have hfil : ((rows.filter (fun r => decide (r.1 ≠ t)) ++ [(t, v)]).filter
        (fun r => decide (t ≤ r.1) && decide (r.1 ≤ t))) = [(t, v)] := by
      rw [List.filter_append]
      have h1 : (rows.filter (fun r => decide (r.1 ≠ t))).filter
          (fun r => decide (t ≤ r.1) && decide (r.1 ≤ t)) = [] := by
        rw [List.filter_eq_nil_iff]
        intro r hrr
        have hne2 := List.of_mem_filter hrr
        simp only [decide_eq_true_eq] at hne2
        simp only [Bool.and_eq_true, decide_eq_true_eq, not_and]
        omega
      rw [h1]
      simp
    rw [hfil]
    rfl
  · intro a b l hq hmem2
    unfold query at hq
    rw [hupd] at hq
    dsimp only at hq
    by_cases hab : b < a
    · rw [if_pos hab] at hq
      cases hq
    · rw [if_neg hab] at hq
      injection hq with hq
      subst hq
      have hm := (List.perm_insertionSort byTime _).mem_iff.1 hmem2
      have hmf := List.mem_of_mem_filter hm
      rcases List.mem_append.1 hmf with hin | hin
      · have hnt := List.of_mem_filter hin
        simp only [decide_eq_true_eq] at hnt
        exact hnt rfl
      · simp only [List.mem_singleton, Prod.mk.injEq] at hin
        exact hne hin.2

/-- C8 witness: on `demoStore`, overwriting the existing row (5, 3) of key
HW-0001 with value 99 exhibits last-write-wins. -/
theorem append_last_write_wins_witness :
    LastWriteWins demoStore .waterlevelData "HW-0001" 5 99 3 :=
  append_last_write_wins demoStore .waterlevelData "HW-0001"
    [(5, 3), (1, 2), (9, 4)] 5 99 3 (by rfl) (by decide) (by decide)

/-! ## Quantile-mapping bias correction (C3) -/

/-- Linear interpolation across one CDF segment: `x` is placed at its
percentile fraction between simulated breakpoints `a` and `b` and mapped to
the same fraction between observed breakpoints `c` and `d`; a degenerate
segment (b = a) maps to `c`. -/
def segInterp (a c b d x : ℚ) : ℚ :=
  c + (if b = a then 0 else (x - a) / (b - a)) * (d - c)

/-- Modelled from the spec (§4.2 quantile mapping; the bias-correction code of
the `tasks` component is not in the visible sources): the correction mapping
over paired CDF breakpoints (simulated value, observed value) at common
probability breakpoints.  `correct(x)` finds the percentile of `x` in the
simulated CDF and returns the observed value at that percentile, linearly
interpolating between breakpoints; outside the simulated range the boundary
segment's slope is held constant (extrapolation, no clamping). -/
def qmCorrect : List (ℚ × ℚ) → ℚ → ℚ
  | [], x => x
  | [(a, c)], x => c + (x - a)
  | (a, c) :: (b, d) :: rest, x =>
      if x ≤ b then segInterp a c b d x
      else
        match rest with
        | [] => segInterp a c b d x
        | _ :: _ => qmCorrect ((b, d) :: rest) x

/-- C3: when the simulated and observed empirical CDFs are identical (every
breakpoint pair is diagonal), `correct(x) = x` for every `x` within the
overlap — exactly, over ℚ, which subsumes both the exact-at-breakpoints and
the within-tolerance-between-breakpoints halves of the claim. -/
theorem qmCorrect_identity (first : ℚ × ℚ) (rest : List (ℚ × ℚ)) (x : ℚ)
    (hdiag : ∀ p ∈ first :: rest, p.1 = p.2)
    (hsort : (first :: rest).Chain' (fun p q => p.1 ≤ q.1))
    (hlo : first.1 ≤ x)
    (hhi : x ≤ ((first :: rest).getLast (List.cons_ne_nil _ _)).1) :
    qmCorrect (first :: rest) x = x := by
  induction rest generalizing first with
  | nil =>
      obtain ⟨a, c⟩ := first
      have hac : a = c := hdiag (a, c) (by simp)
      simp only [List.getLast_singleton] at hhi
      have hxa : x = a := le_antisymm hhi hlo
      subst hac
      subst hxa
      simp [qmCorrect]
  | cons q tl ih =>
      obtain ⟨a, c⟩ := first
      obtain ⟨b, d⟩ := q
      have hac : a = c := hdiag (a, c) (by simp)
      have hbd : b = d := hdiag (b, d) (by simp)
      subst hac
      subst hbd
      by_cases hxb : x ≤ b
      · have hseg : qmCorrect ((a, a) :: (b, b) :: tl) x = segInterp a a b b x := by
          cases tl <;> simp [qmCorrect, hxb]
        rw [hseg]
        unfold segInterp
        by_cases hba : b = a
        · subst hba
          have hxeq : x = b := le_antisymm hxb hlo
          subst hxeq
          ring
        · rw [if_neg hba]
          rw [div_mul_cancel₀]
          · ring
          · exact sub_ne_zero.2 fun h => hba (by linarith)
      · cases tl with
        | nil =>
            simp only [List.getLast] at hhi
            exact absurd hhi (by simpa using hxb)
        | cons q2 tl2 =>
            have hstep : qmCorrect ((a, a) :: (b, b) :: q2 :: tl2) x =
                qmCorrect ((b, b) :: q2 :: tl2) x := by
              simp [qmCorrect, hxb]
            rw [hstep]
            apply ih (b, b)
            · intro p hp
              exact hdiag p (List.mem_cons_of_mem _ hp)
            · exact hsort.tail
            · exact le_of_lt (not_le.1 hxb)
            · simpa using hhi

/-- C3 witness: with identical three-breakpoint CDFs 1 < 2 < 4 and
x = 3 strictly between breakpoints, the correction returns x itself. -/
theorem qmCorrect_identity_witness :
    qmCorrect ((1, 1) :: [(2, 2), (4, 4)]) 3 = 3 :=
  qmCorrect_identity (1, 1) [(2, 2), (4, 4)] 3 (by decide)
    (by norm_num [List.chain'_cons, List.chain'_singleton]) (by decide) (by decide)


/-! ## Calendar dates and `getDateRangeGeoglows` (C5)

Embedding of `utils.getDateRangeGeoglows` (frontend/src/app/modules/utils.ts,
lines 38-52) at the calendar level: a JavaScript `Date` always holds a
normalized (valid) calendar date, `setDate(getDate() + 14)` on a fresh copy
advances it by exactly fourteen days, `setDate(getDate() + 1)` by one day, and
`currentDate <= endDate` compares the dates chronologically (both carry the
same time of day). -/

/-- Gregorian leap-year rule. -/
def isLeap (y : Nat) : Bool :=
  (y % 4 == 0 && y % 100 != 0) || y % 400 == 0

/-- Number of days of month `m` (1-12) in year `y`. -/
def daysInMonth (y m : Nat) : Nat :=
  if m = 2 then (if isLeap y then 29 else 28)
  else if m = 4 ∨ m = 6 ∨ m = 9 ∨ m = 11 then 30
  else 31

/-- A calendar date as year, month (1-12) and day of month. -/
structure CalDate where
  year : Nat
  month : Nat
  day : Nat
  deriving DecidableEq, Repr

/-- A normalized calendar date, as always held by a JavaScript `Date`. -/
def CalDate.Valid (d : CalDate) : Prop :=
  1 ≤ d.month ∧ d.month ≤ 12 ∧ 1 ≤ d.day ∧ d.day ≤ daysInMonth d.year d.month

instance (d : CalDate) : Decidable d.Valid :=
  decidable_of_iff
    (1 ≤ d.month ∧ d.month ≤ 12 ∧ 1 ≤ d.day ∧ d.day ≤ daysInMonth d.year d.month)
    Iff.rfl

/-- `setDate(getDate() + 1)`: the next calendar day, with month and year
rollover. -/
def nextDay (d : CalDate) : CalDate :=
  if d.day < daysInMonth d.year d.month then ⟨d.year, d.month, d.day + 1⟩
  else if d.month < 12 then ⟨d.year, d.month + 1, 1⟩
  else ⟨d.year + 1, 1, 1⟩

/-- Days in year `y` before the first of month `m`. -/
def daysBeforeMonth (y m : Nat) : Nat :=
  ((List.range (m - 1)).map (fun k => daysInMonth y (k + 1))).sum

/-- Length of year `y` in days. -/
def daysInYear (y : Nat) : Nat := if isLeap y then 366 else 365

/-- Days in all years before year `y`: 365 per year plus one per leap year,
in closed form so that concrete dates evaluate cheaply. -/
def daysBeforeYear (y : Nat) : Nat :=
  365 * y + (y + 3) / 4 - (y + 99) / 100 + (y + 399) / 400

lemma isLeap_iff (y : Nat) :
    isLeap y = true ↔ ((y % 4 = 0 ∧ y % 100 ≠ 0) ∨ y % 400 = 0) := by
  unfold isLeap
  simp

set_option maxHeartbeats 1600000 in
lemma daysBeforeYear_succ (y : Nat) :
    daysBeforeYear (y + 1) = daysBeforeYear y + daysInYear y := by
  unfold daysInYear
  by_cases hl : isLeap y = true
  · rw [if_pos hl]
    have hp := (isLeap_iff y).1 hl
    unfold daysBeforeYear
    omega
  · rw [if_neg hl]
    have hp : ¬ ((y % 4 = 0 ∧ y % 100 ≠ 0) ∨ y % 400 = 0) :=
      fun h => hl ((isLeap_iff y).2 h)
    clear hl
    unfold daysBeforeYear
    omega

/-- Linear day number of a date; chronological order on valid dates, mirroring
the timestamp order JavaScript uses when comparing `Date`s. -/
def toNum (d : CalDate) : Nat :=
  daysBeforeYear d.year + daysBeforeMonth d.year d.month + d.day

lemma daysInMonth_pos (y m : Nat) : 1 ≤ daysInMonth y m := by
  unfold daysInMonth
  split
  · split <;> omega
  · split <;> omega

lemma daysInMonth_le31 (y m : Nat) : daysInMonth y m ≤ 31 := by
  unfold daysInMonth
  split
  · split <;> omega
  · split <;> omega

lemma nextDay_valid {d : CalDate} (h : d.Valid) : (nextDay d).Valid := by
  obtain ⟨h1, h2, h3, h4⟩ := h
  unfold nextDay
  split
  · rename_i hlt
    dsimp only [CalDate.Valid]
    omega
  · rename_i hge
    split
    · rename_i hm
      dsimp only [CalDate.Valid]
      exact ⟨by omega, by omega, le_refl 1, daysInMonth_pos _ _⟩
    · dsimp only [CalDate.Valid]
      exact ⟨le_refl 1, by omega, le_refl 1, daysInMonth_pos _ _⟩

lemma sum_months (y : Nat) :
    daysBeforeMonth y 12 + daysInMonth y 12 = daysInYear y := by
  have hr : List.range 11 = [0, 1, 2, 3, 4, 5, 6, 7, 8, 9, 10] := by rfl
  unfold daysBeforeMonth daysInYear
  rw [show (12:Nat) - 1 = 11 from rfl, hr]
  cases hl : isLeap y <;> simp [daysInMonth, hl]

lemma daysBeforeMonth_succ (y m : Nat) (h1 : 1 ≤ m) :
    daysBeforeMonth y (m + 1) = daysBeforeMonth y m + daysInMonth y m := by
  unfold daysBeforeMonth
  rw [show m + 1 - 1 = (m - 1) + 1 from by omega]
  rw [List.range_succ]
  simp [show m - 1 + 1 = m from by omega]

/-- On a valid date, `nextDay` advances the day number by exactly one —
the JavaScript `setDate(getDate() + 1)` step. -/
lemma toNum_nextDay {d : CalDate} (h : d.Valid) : toNum (nextDay d) = toNum d + 1 := by
  obtain ⟨h1, h2, h3, h4⟩ := h
  unfold nextDay toNum
  split
  · simp
    omega
  · rename_i hda
    have hde : d.day = daysInMonth d.year d.month := by omega
    split
    · rename_i hm
      simp only
      rw [daysBeforeMonth_succ d.year d.month h1]
      omega
    · rename_i hm
      have hm12 : d.month = 12 := by omega
      simp only
      rw [daysBeforeYear_succ]
      have hz : daysBeforeMonth (d.year + 1) 1 = 0 := rfl
      rw [hz, hde, hm12]
      have hs := sum_months d.year
      omega

/-- A valid calendar date — the state of a JavaScript `Date`. -/
def VDate := {d : CalDate // d.Valid}

def nextDayV (d : VDate) : VDate := ⟨nextDay d.1, nextDay_valid d.2⟩

/-- Advancing a date by `n` days. -/
def addDaysV (n : Nat) (d : VDate) : VDate := nextDayV^[n] d

/-- The padStart(2, zero) of the source, for the month and day values in
range: two-digit zero-padded rendering. -/
def pad2 (n : Nat) : String := if n < 10 then "0" ++ toString n else toString n

/-- The template literal of the source: year, padded month, padded day joined
with dashes. -/
def fmtDate (d : CalDate) : String :=
  toString d.year ++ "-" ++ pad2 d.month ++ "-" ++ pad2 d.day

/-- The while loop of `getDateRangeGeoglows`: push the formatted current date
and advance one day while `currentDate <= endDate`. -/
def dateLoop (e : CalDate) (cur : VDate) : List String :=
  if toNum cur.1 ≤ toNum e then fmtDate cur.1 :: dateLoop e (nextDayV cur)
  else []
termination_by toNum e + 1 - toNum cur.1
decreasing_by
  have hstep := toNum_nextDay cur.2
  simp only [nextDayV]
  omega

/-- `utils.getDateRangeGeoglows(selectedDate)`: the loop from the selected
date up to and including `selectedDate + 14` days. -/
def getDateRangeGeoglows (selectedDate : VDate) : List String :=
  dateLoop (addDaysV 14 selectedDate).1 selectedDate

lemma nextDayV_val (x : VDate) : (nextDayV x).1 = nextDay x.1 := rfl

lemma toNum_addDaysV (n : Nat) (d : VDate) :
    toNum (addDaysV n d).1 = toNum d.1 + n := by
  induction n with
  | zero => rfl
  | succ k ih =>
      have hs : addDaysV (k + 1) d = nextDayV (addDaysV k d) := by
        unfold addDaysV
        rw [Function.iterate_succ_apply']
      rw [hs, nextDayV_val]
      have hv := toNum_nextDay (addDaysV k d).2
      omega

lemma dateLoop_eq (k : Nat) : ∀ (cur : VDate) (e : CalDate),
    toNum e = toNum cur.1 + k →
    dateLoop e cur = (List.range (k + 1)).map (fun i => fmtDate (addDaysV i cur).1) := by
  induction k with
  | zero =>
      intro cur e he
      rw [dateLoop, if_pos (by omega)]
      rw [dateLoop]
      have hv := toNum_nextDay cur.2
      rw [if_neg (by rw [nextDayV_val]; omega)]
      rfl
  | succ n ih =>
      intro cur e he
      rw [dateLoop, if_pos (by omega)]
      have hv := toNum_nextDay cur.2
      rw [ih (nextDayV cur) e (by rw [nextDayV_val]; omega)]
      conv_rhs => rw [List.range_succ_eq_map, List.map_cons, List.map_map]
      exact rfl

lemma pad2_length (n : Nat) (h1 : 1 ≤ n) (h2 : n ≤ 31) : (pad2 n).length = 2 := by
  interval_cases n <;> rfl

/-- C5: for every selected initialization date, `getDateRangeGeoglows` returns
exactly the 15 consecutive calendar dates starting at the selected date, in
ascending order (day numbers increase by one per element, element 0 being the
selected date itself), each formatted year-dash-two-digit-month-dash-two-digit
day — one date per lead-day field wd01 … wd15 of the warning table. -/
theorem getDateRangeGeoglows_fifteen_consecutive (d : VDate) :
    getDateRangeGeoglows d =
      (List.range 15).map (fun i => fmtDate (addDaysV i d).1) ∧
    (getDateRangeGeoglows d).length = 15 ∧
    (∀ i, toNum (addDaysV i d).1 = toNum d.1 + i) ∧
    addDaysV 0 d = d ∧
    (∀ i, fmtDate (addDaysV i d).1 =
        toString (addDaysV i d).1.year ++ "-" ++ pad2 (addDaysV i d).1.month ++
          "-" ++ pad2 (addDaysV i d).1.day ∧
      (pad2 (addDaysV i d).1.month).length = 2 ∧
      (pad2 (addDaysV i d).1.day).length = 2) := by
  have hmain : getDateRangeGeoglows d =
      (List.range 15).map (fun i => fmtDate (addDaysV i d).1) := by
    unfold getDateRangeGeoglows
    exact dateLoop_eq 14 d (addDaysV 14 d).1 (toNum_addDaysV 14 d)
  refine ⟨hmain, ?_, fun i => toNum_addDaysV i d, rfl, ?_⟩
  · rw [hmain]
    simp
  · intro i
    obtain ⟨hm1, hm2, hd1, hd2⟩ := (addDaysV i d).2
    exact ⟨rfl, pad2_length _ hm1 (by omega),
      pad2_length _ hd1 (le_trans hd2 (daysInMonth_le31 _ _))⟩


/-! ## Time-range partitioning of the schema (C6)

Each `FOR VALUES FROM (lo) TO (hi)` of the DDL is a half-open interval
[lo, hi) on the partitioned timestamp column. -/

/-- Partitions of `waterlevel_data` (DDL lines 42-52): three ten-year ranges. -/
def waterlevelPartitions : List (CalDate × CalDate) :=
  [(⟨2000, 1, 1⟩, ⟨2010, 1, 1⟩), (⟨2010, 1, 1⟩, ⟨2020, 1, 1⟩),
   (⟨2020, 1, 1⟩, ⟨2030, 1, 1⟩)]

/-- Partitions of `historical_simulation` (DDL lines 68-78): three ten-year
ranges. -/
def historicalSimulationPartitions : List (CalDate × CalDate) :=
  [(⟨2000, 1, 1⟩, ⟨2010, 1, 1⟩), (⟨2010, 1, 1⟩, ⟨2020, 1, 1⟩),
   (⟨2020, 1, 1⟩, ⟨2030, 1, 1⟩)]

/-- Partitions of `forecast_records` (DDL lines 257-263): two one-year
ranges. -/
def forecastRecordsPartitions : List (CalDate × CalDate) :=
  [(⟨2025, 1, 1⟩, ⟨2026, 1, 1⟩), (⟨2026, 1, 1⟩, ⟨2027, 1, 1⟩)]

/-- Partitions of `ensemble_forecast` (DDL lines 145-239), partitioned on the
`initialized` column: twenty-four one-month ranges, 2025-01 through 2026-12. -/
def ensembleForecastPartitions : List (CalDate × CalDate) :=
  [(⟨2025, 1, 1⟩, ⟨2025, 2, 1⟩),
   (⟨2025, 2, 1⟩, ⟨2025, 3, 1⟩),
   (⟨2025, 3, 1⟩, ⟨2025, 4, 1⟩),
   (⟨2025, 4, 1⟩, ⟨2025, 5, 1⟩),
   (⟨2025, 5, 1⟩, ⟨2025, 6, 1⟩),
   (⟨2025, 6, 1⟩, ⟨2025, 7, 1⟩),
   (⟨2025, 7, 1⟩, ⟨2025, 8, 1⟩),
   (⟨2025, 8, 1⟩, ⟨2025, 9, 1⟩),
   (⟨2025, 9, 1⟩, ⟨2025, 10, 1⟩),
   (⟨2025, 10, 1⟩, ⟨2025, 11, 1⟩),
   (⟨2025, 11, 1⟩, ⟨2025, 12, 1⟩),
   (⟨2025, 12, 1⟩, ⟨2026, 1, 1⟩),
   (⟨2026, 1, 1⟩, ⟨2026, 2, 1⟩),
   (⟨2026, 2, 1⟩, ⟨2026, 3, 1⟩),
   (⟨2026, 3, 1⟩, ⟨2026, 4, 1⟩),
   (⟨2026, 4, 1⟩, ⟨2026, 5, 1⟩),
   (⟨2026, 5, 1⟩, ⟨2026, 6, 1⟩),
   (⟨2026, 6, 1⟩, ⟨2026, 7, 1⟩),
   (⟨2026, 7, 1⟩, ⟨2026, 8, 1⟩),
   (⟨2026, 8, 1⟩, ⟨2026, 9, 1⟩),
   (⟨2026, 9, 1⟩, ⟨2026, 10, 1⟩),
   (⟨2026, 10, 1⟩, ⟨2026, 11, 1⟩),
   (⟨2026, 11, 1⟩, ⟨2026, 12, 1⟩),
   (⟨2026, 12, 1⟩, ⟨2027, 1, 1⟩)]

/-- A timestamp (as a day number) falls in partition `p` = [lo, hi). -/
def inPartition (t : Nat) (p : CalDate × CalDate) : Prop :=
  toNum p.1 ≤ t ∧ t < toNum p.2

instance (t : Nat) (p : CalDate × CalDate) : Decidable (inPartition t p) :=
  decidable_of_iff (toNum p.1 ≤ t ∧ t < toNum p.2) Iff.rfl

/-- Both bounds of the partition sit on a January 1st: its range is expressed
at whole-year granularity. -/
def YearBoundary (p : CalDate × CalDate) : Prop :=
  p.1.month = 1 ∧ p.1.day = 1 ∧ p.2.month = 1 ∧ p.2.day = 1

instance (p : CalDate × CalDate) : Decidable (YearBoundary p) :=
  decidable_of_iff (p.1.month = 1 ∧ p.1.day = 1 ∧ p.2.month = 1 ∧ p.2.day = 1)
    Iff.rfl

/-- The partition covers exactly one calendar month: both bounds are firsts of
months and the upper bound is the month after the lower. -/
def MonthPartition (p : CalDate × CalDate) : Prop :=
  p.1.day = 1 ∧ p.2.day = 1 ∧
    ((p.2.year = p.1.year ∧ p.2.month = p.1.month + 1) ∨
     (p.2.year = p.1.year + 1 ∧ p.1.month = 12 ∧ p.2.month = 1))

instance (p : CalDate × CalDate) : Decidable (MonthPartition p) :=
  decidable_of_iff (p.1.day = 1 ∧ p.2.day = 1 ∧
    ((p.2.year = p.1.year ∧ p.2.month = p.1.month + 1) ∨
     (p.2.year = p.1.year + 1 ∧ p.1.month = 12 ∧ p.2.month = 1))) Iff.rfl

/-- In a chained partition list (each upper bound is the next lower bound),
every partition starts at or after the first lower bound. -/
lemma chain_lo_bound (first : CalDate × CalDate) (rest : List (CalDate × CalDate))
    (hchain : List.Chain' (fun p q => p.2 = q.1) (first :: rest))
    (hw : ∀ p ∈ first :: rest, toNum p.1 < toNum p.2) :
    ∀ q ∈ first :: rest, toNum first.1 ≤ toNum q.1 := by
  induction rest generalizing first with
  | nil =>
      intro q hq
      rw [List.mem_singleton] at hq
      subst hq
      exact le_refl _
  | cons p2 tl ih =>
      intro q hq
      rcases List.mem_cons.1 hq with h | h
      · subst h
        exact le_refl _
      · have h21 : first.2 = p2.1 := (List.chain'_cons.1 hchain).1
        have hf := hw first (by simp)
        rw [h21] at hf
        have hrec := ih p2 (List.chain'_cons.1 hchain).2
          (fun p hp => hw p (List.mem_cons_of_mem _ hp)) q h
        exact le_trans (le_of_lt hf) hrec

/-- A chained list of nonempty partitions covers each timestamp of its span
by exactly one partition. -/
lemma chained_unique_cover (first : CalDate × CalDate)
    (rest : List (CalDate × CalDate)) (t : Nat)
    (hchain : List.Chain' (fun p q => p.2 = q.1) (first :: rest))
    (hw : ∀ p ∈ first :: rest, toNum p.1 < toNum p.2)
    (hlo : toNum first.1 ≤ t)
    (hhi : t < toNum (((first :: rest).getLast (List.cons_ne_nil _ _)).2)) :
    ∃! p, p ∈ first :: rest ∧ inPartition t p := by
  induction rest generalizing first with
  | nil =>
      refine ⟨first, ⟨by simp, hlo, by simpa using hhi⟩, ?_⟩
      rintro q ⟨hq, _⟩
      simpa using hq
  | cons p2 tl ih =>
      have h21 : first.2 = p2.1 := (List.chain'_cons.1 hchain).1
      by_cases hcase : t < toNum first.2
      · refine ⟨first, ⟨by simp, hlo, hcase⟩, ?_⟩
        rintro q ⟨hq, hq1, hq2⟩
        rcases List.mem_cons.1 hq with h | h
        · exact h
        · have hb := chain_lo_bound p2 tl (List.chain'_cons.1 hchain).2
            (fun p hp => hw p (List.mem_cons_of_mem _ hp)) q h
          rw [← h21] at hb
          omega
      · have hlo2 : toNum p2.1 ≤ t := by
          rw [← h21]
          have hf := hw first (by simp)
          omega
        have hhi2 : t < toNum ((p2 :: tl).getLast (List.cons_ne_nil _ _)).2 := by
          rw [List.getLast_cons (List.cons_ne_nil _ _)] at hhi
          exact hhi
        obtain ⟨q, ⟨hqmem, hqin⟩, huniq⟩ := ih p2 (List.chain'_cons.1 hchain).2
          (fun p hp => hw p (List.mem_cons_of_mem _ hp)) hlo2 hhi2
        refine ⟨q, ⟨List.mem_cons_of_mem _ hqmem, hqin⟩, ?_⟩
        rintro r ⟨hr, hrin⟩
        rcases List.mem_cons.1 hr with h | h
        · subst h
          exact absurd hrin.2 hcase
        · exact huniq r ⟨h, hrin⟩

/-- C6 counterexample: `waterlevel_data` is not partitioned per year — its
first partition holds timestamps of two different calendar years
(2000-06-01 and 2005-06-01), so same-partition does not imply same year. -/
theorem waterlevel_partition_not_per_year :
    ∃ p ∈ waterlevelPartitions,
      inPartition (toNum ⟨2000, 6, 1⟩) p ∧ inPartition (toNum ⟨2005, 6, 1⟩) p ∧
      (⟨2000, 6, 1⟩ : CalDate).year ≠ (⟨2005, 6, 1⟩ : CalDate).year :=
  ⟨(⟨2000, 1, 1⟩, ⟨2010, 1, 1⟩), by decide, by decide, by decide, by decide⟩

/-- C6 (amended): every series kind is range-partitioned by time with bounds
at whole-year (January 1st) granularity — ten-year spans for the observed and
historical-simulation tables, one-year spans for forecast records — except
`ensemble_forecast`, whose partitions are single calendar months; and for each
kind every timestamp within the covered span falls into exactly one
partition. -/
theorem partitions_year_granularity_unique_cover :
    (∀ p ∈ waterlevelPartitions ++ historicalSimulationPartitions ++
        forecastRecordsPartitions, YearBoundary p) ∧
    (∀ p ∈ ensembleForecastPartitions, MonthPartition p) ∧
    (∀ t, toNum ⟨2000, 1, 1⟩ ≤ t → t < toNum ⟨2030, 1, 1⟩ →
        ∃! p, p ∈ waterlevelPartitions ∧ inPartition t p) ∧
    (∀ t, toNum ⟨2000, 1, 1⟩ ≤ t → t < toNum ⟨2030, 1, 1⟩ →
        ∃! p, p ∈ historicalSimulationPartitions ∧ inPartition t p) ∧
    (∀ t, toNum ⟨2025, 1, 1⟩ ≤ t → t < toNum ⟨2027, 1, 1⟩ →
        ∃! p, p ∈ forecastRecordsPartitions ∧ inPartition t p) ∧
    (∀ t, toNum ⟨2025, 1, 1⟩ ≤ t → t < toNum ⟨2027, 1, 1⟩ →
        ∃! p, p ∈ ensembleForecastPartitions ∧ inPartition t p) := by
  refine ⟨by decide, by decide, ?_, ?_, ?_, ?_⟩
  · intro t h1 h2
    exact chained_unique_cover _ _ t (by simp [List.chain'_cons]) (by decide) h1 h2
  · intro t h1 h2
    exact chained_unique_cover _ _ t (by simp [List.chain'_cons]) (by decide) h1 h2
  · intro t h1 h2
    exact chained_unique_cover _ _ t (by simp [List.chain'_cons]) (by decide) h1 h2
  · intro t h1 h2
    exact chained_unique_cover _ _ t (by simp [List.chain'_cons]) (by decide) h1 h2

/-- C6 witness: 2025-06-15 is covered by exactly one monthly partition of
`ensemble_forecast`. -/
theorem partitions_year_granularity_unique_cover_witness :
    ∃! p, p ∈ ensembleForecastPartitions ∧ inPartition (toNum ⟨2025, 6, 15⟩) p :=
  partitions_year_granularity_unique_cover.2.2.2.2.2 (toNum ⟨2025, 6, 15⟩)
    (by decide) (by decide)


/-! ## `filterByDayWaterLevel` (C9)

Embedding of `utils.filterByDayWaterLevel` (frontend/src/app/modules/utils.ts,
lines 3-29).  Feature fields other than `properties` are opaque to the
transformation, so they are a type parameter; a JavaScript object is a partial
map from key to value (a missing key reads as undefined, `none`). -/

/-- A GeoJSON feature as consumed by the function: type, id, geometry, bbox
and a properties object. -/
structure GeoFeature (α : Type) where
  ftype : α
  id : α
  geometry : α
  bbox : α
  properties : String → Option α

/-- A GeoJSON feature collection: its `type` tag and its features. -/
structure GeoFeatureCollection (α : Type) where
  ctype : α
  features : List (GeoFeature α)

/-- The ten property names destructured from `feature.properties` by the
source. -/
def stationMetaKeys : List String :=
  ["hydroweb", "reachid", "basin", "river", "name", "latitude", "longitude",
   "state", "country", "datetime"]

/-- The rebuilt properties object: the ten station-metadata fields copied
through, plus `alert` holding the input value at `propertyKey`, and nothing
else. -/
def outProps {α : Type} (props : String → Option α) (propertyKey : String) :
    String → Option α := fun m =>
  if m = "hydroweb" then props "hydroweb"
  else if m = "reachid" then props "reachid"
  else if m = "basin" then props "basin"
  else if m = "river" then props "river"
  else if m = "name" then props "name"
  else if m = "latitude" then props "latitude"
  else if m = "longitude" then props "longitude"
  else if m = "state" then props "state"
  else if m = "country" then props "country"
  else if m = "datetime" then props "datetime"
  else if m = "alert" then props propertyKey
  else none

/-- `utils.filterByDayWaterLevel(geojson, propertyKey)`: map over the features,
keeping type, id, geometry and bbox and rebuilding the properties. -/
def filterByDayWaterLevel {α : Type} (g : GeoFeatureCollection α)
    (propertyKey : String) : GeoFeatureCollection α :=
  ⟨g.ctype, g.features.map (fun f =>
    ⟨f.ftype, f.id, f.geometry, f.bbox, outProps f.properties propertyKey⟩)⟩

/-- C9: `filterByDayWaterLevel` returns a collection with exactly as many
features, in the same order; each output feature keeps the input feature at
the same position: its type, id, geometry and bbox, while its properties are
exactly the ten station-metadata fields plus an `alert` field equal to the
input value at the requested lead-day key, and nothing else. -/
theorem filterByDayWaterLevel_spec {α : Type} (g : GeoFeatureCollection α)
    (k : String) :
    (filterByDayWaterLevel g k).ctype = g.ctype ∧
    (filterByDayWaterLevel g k).features.length = g.features.length ∧
    (∀ i (hi : i < g.features.length)
        (ho : i < (filterByDayWaterLevel g k).features.length),
      (((filterByDayWaterLevel g k).features.get ⟨i, ho⟩).ftype =
          (g.features.get ⟨i, hi⟩).ftype ∧
        ((filterByDayWaterLevel g k).features.get ⟨i, ho⟩).id =
          (g.features.get ⟨i, hi⟩).id ∧
        ((filterByDayWaterLevel g k).features.get ⟨i, ho⟩).geometry =
          (g.features.get ⟨i, hi⟩).geometry ∧
        ((filterByDayWaterLevel g k).features.get ⟨i, ho⟩).bbox =
          (g.features.get ⟨i, hi⟩).bbox) ∧
      (∀ m ∈ stationMetaKeys,
        ((filterByDayWaterLevel g k).features.get ⟨i, ho⟩).properties m =
          (g.features.get ⟨i, hi⟩).properties m) ∧
      ((filterByDayWaterLevel g k).features.get ⟨i, ho⟩).properties "alert" =
        (g.features.get ⟨i, hi⟩).properties k ∧
      (∀ m, m ∉ stationMetaKeys → m ≠ "alert" →
        ((filterByDayWaterLevel g k).features.get ⟨i, ho⟩).properties m =
          none)) := by
  refine ⟨rfl, by simp [filterByDayWaterLevel], ?_⟩
  intro i hi ho
  have hget : (filterByDayWaterLevel g k).features.get ⟨i, ho⟩ =
      ⟨(g.features.get ⟨i, hi⟩).ftype, (g.features.get ⟨i, hi⟩).id,
        (g.features.get ⟨i, hi⟩).geometry, (g.features.get ⟨i, hi⟩).bbox,
        outProps (g.features.get ⟨i, hi⟩).properties k⟩ := by
    unfold filterByDayWaterLevel
    simp [List.get_map]
  rw [hget]
  refine ⟨⟨rfl, rfl, rfl, rfl⟩, ?_, rfl, ?_⟩
  · intro m hm
    simp only [stationMetaKeys, List.mem_cons, List.not_mem_nil, or_false] at hm
    rcases hm with rfl | rfl | rfl | rfl | rfl | rfl | rfl | rfl | rfl | rfl <;> rfl
  · intro m hm halert
    simp only [stationMetaKeys, List.mem_cons, List.not_mem_nil, or_false,
      not_or] at hm
    obtain ⟨h1, h2, h3, h4, h5, h6, h7, h8, h9, h10⟩ := hm
    simp [outProps, h1, h2, h3, h4, h5, h6, h7, h8, h9, h10, halert]

/-- A one-feature collection carrying a hydroweb code and a wd01 warning. -/
def demoFeature : GeoFeature String :=
  ⟨"Feature", "F1", "geomPoint", "bbox0",
    fun m => if m = "hydroweb" then some "HW-0001"
      else if m = "wd01" then some "R25" else none⟩

/-- The collection around `demoFeature`. -/
def demoGeo : GeoFeatureCollection String := ⟨"FeatureCollection", [demoFeature]⟩

/-- C9 witness: selecting lead day wd01 on the concrete collection copies the
wd01 value into `alert` and keeps the hydroweb metadata. -/
theorem filterByDayWaterLevel_spec_witness :
    ((filterByDayWaterLevel demoGeo "wd01").features.get
        ⟨0, by decide⟩).properties "alert" = some "R25" ∧
    ((filterByDayWaterLevel demoGeo "wd01").features.get
        ⟨0, by decide⟩).properties "hydroweb" = some "HW-0001" := by
  have h := (filterByDayWaterLevel_spec demoGeo "wd01").2.2 0 (by decide) (by decide)
  exact ⟨h.2.2.1.trans rfl, (h.2.1 "hydroweb" (by decide)).trans rfl⟩

/-- C5 witness: the concrete initialization date 2025-12-25 yields a 15-date
range (rolling over the year boundary). -/
theorem getDateRangeGeoglows_fifteen_consecutive_witness :
    (getDateRangeGeoglows ⟨⟨2025, 12, 25⟩, by decide⟩).length = 15 :=
  (getDateRangeGeoglows_fifteen_consecutive ⟨⟨2025, 12, 25⟩, by decide⟩).2.1
